import Mathlib

/-!
Verification of the CFO-Copilot financial metrics and query resolution engine.

Shallow embedding of `src/agent/data_loader.py`, `src/agent/metrics.py` and
`src/agent/planner.py`.  Months (pandas `Period` with monthly frequency) are
modelled as natural-number ordinals; monetary amounts and FX rates are exact
rationals; a pandas float column that may hold NaN (a join miss) is modelled
as `Option ℚ`, and the handful of places where IEEE division by zero matters
are modelled with an explicit four-way value (`PFloat`).
-/

namespace CFO

/-- Banker's rounding (round half to even) of a rational to an integer,
mirroring Python's built-in `round`. -/
def roundHalfEven (x : ℚ) : ℤ :=
  if x - (⌊x⌋ : ℚ) < 1/2 then ⌊x⌋
  else if 1/2 < x - (⌊x⌋ : ℚ) then ⌊x⌋ + 1
  else if ⌊x⌋ % 2 = 0 then ⌊x⌋ else ⌊x⌋ + 1

/-- Python `round(x, 2)` on exact rationals. -/
def round2 (x : ℚ) : ℚ := (roundHalfEven (x * 100) : ℚ) / 100

/-- Python `round(x, 1)` on exact rationals. -/
def round1 (x : ℚ) : ℚ := (roundHalfEven (x * 10) : ℚ) / 10

/-- Result of a pandas floating-point computation: a finite rational, a signed
infinity, or NaN.  Used where the source divides by a possibly-zero column. -/
inductive PFloat where
  | num : ℚ → PFloat
  | posInf : PFloat
  | negInf : PFloat
  | nan : PFloat
deriving DecidableEq

/-- The pandas column expression `(revenue - cogs) / revenue * 100`
(metrics.py line 160): numpy turns `x / 0.0` into `+inf` for `x > 0`,
`-inf` for `x < 0` and NaN for `x = 0`. -/
def gmRatio (revenue cogs : ℚ) : PFloat :=
  if revenue = 0 then
    if revenue - cogs = 0 then PFloat.nan
    else if 0 < revenue - cogs then PFloat.posInf
    else PFloat.negInf
  else PFloat.num ((revenue - cogs) / revenue * 100)

/-- The pandas call `.replace([pd.NA, float("inf")], 0)` (metrics.py line 161):
NaN (matched by the NA-like `pd.NA`) and `+inf` become `0`; `-inf` and finite
values pass through. -/
def replaceNaInf0 : PFloat → PFloat
  | PFloat.nan => PFloat.num 0
  | PFloat.posInf => PFloat.num 0
  | x => x

/-- A row of the `fx` sheet after month normalization. -/
structure FxRow where
  month : ℕ
  currency : String
  rate_to_usd : ℚ
deriving DecidableEq

/-- A raw `actuals` or `budget` row before currency conversion. -/
structure RawRow where
  month : ℕ
  entity : String
  account_category : String
  currency : String
  amount : ℚ
deriving DecidableEq

/-- A row of the unified ledger produced by `load_data`
(columns `[month, entity, account_category, type, amount_usd]`);
`amount_usd = none` models a NaN from an FX join miss. -/
structure LedgerRow where
  month : ℕ
  entity : String
  account_category : String
  type : String
  amount_usd : Option ℚ
deriving DecidableEq

/-- A row of the cash-balance sheet. -/
structure CashRow where
  month : ℕ
  entity : String
  cash_usd : ℚ
deriving DecidableEq

/-- Model of `fx["month"].unique()`: distinct values in order of first
occurrence, with an accumulator of values already emitted. -/
def uniqueFirstAux : List ℕ → List ℕ → List ℕ
  | [], _ => []
  | a :: l, seen => if a ∈ seen then uniqueFirstAux l seen else a :: uniqueFirstAux l (a :: seen)

/-- Distinct months of a column, first occurrence first. -/
def uniqueMonths (l : List ℕ) : List ℕ := uniqueFirstAux l []

/-- The row predicate `(fx["currency"] == "USD") & (fx["rate_to_usd"] == 1.0)`. -/
def isUsdOne (r : FxRow) : Bool := r.currency == "USD" && decide (r.rate_to_usd = 1)

/-- Currency Normalizer (data_loader.py lines 24-34): if no row of the whole
table is a USD identity row, append one synthesized `(month, "USD", 1.0)` row
per distinct month; otherwise return the table unchanged. -/
def normalizeFx (fx : List FxRow) : List FxRow :=
  if fx.any isUsdOne then fx
  else fx ++ (uniqueMonths (fx.map (fun r => r.month))).map (fun m => ⟨m, "USD", 1⟩)

/-- All rates of the FX table whose `(month, currency)` key matches; the
left-join of data_loader.py lines 37 and 42 emits one output row per match. -/
def fxMatches (fx : List FxRow) (m : ℕ) (c : String) : List ℚ :=
  (fx.filter (fun r => r.month == m && r.currency == c)).map (fun r => r.rate_to_usd)

/-- Conversion of one raw row by the left-join + multiply of data_loader.py
lines 36-44: no matching rate gives a single row with a missing (NaN)
`amount_usd`; each matching rate gives a row with `amount * rate_to_usd`. -/
def convertRow (fx : List FxRow) (tag : String) (r : RawRow) : List LedgerRow :=
  match fxMatches fx r.month r.currency with
  | [] => [⟨r.month, r.entity, r.account_category, tag, none⟩]
  | rs => rs.map (fun rate => ⟨r.month, r.entity, r.account_category, tag, some (r.amount * rate)⟩)

/-- Ledger Unifier (data_loader.py lines 36-48): convert actuals and budget
against the normalized FX table, tag them, and concatenate. -/
def unifyLedger (actuals budget : List RawRow) (fx : List FxRow) : List LedgerRow :=
  let nfx := normalizeFx fx
  (actuals.map (convertRow nfx "actual")).flatten ++ (budget.map (convertRow nfx "budget")).flatten

/-- pandas `.sum()` over an `amount_usd` column: NaN entries are skipped. -/
def sumAmounts (rows : List LedgerRow) : ℚ := (rows.filterMap (fun r => r.amount_usd)).sum

/-- Return record of `get_revenue_vs_budget`. -/
structure RvBResult where
  month : ℕ
  actual : ℚ
  budget : ℚ
  variance : ℚ
  variance_pct : Option ℚ
deriving DecidableEq

/-- metrics.py `get_revenue_vs_budget` (lines 125-144): sum `amount_usd` over
the month's `Revenue` rows split by `type`; `variance_pct` is `None` when the
budget sum is zero; monetary outputs are rounded to 2 decimals at return. -/
def getRevenueVsBudget (df : List LedgerRow) (month : ℕ) : RvBResult :=
  let data := df.filter (fun r => r.month == month && r.account_category == "Revenue")
  let actual := sumAmounts (data.filter (fun r => r.type == "actual"))
  let budget := sumAmounts (data.filter (fun r => r.type == "budget"))
  let variance := actual - budget
  let variance_pct : Option ℚ := if budget ≠ 0 then some (variance / budget * 100) else none
  { month := month, actual := round2 actual, budget := round2 budget,
    variance := round2 variance, variance_pct := variance_pct.map round2 }

/-- A row of the `get_gross_margin_trend` output frame. -/
structure TrendRow where
  month : ℕ
  revenue : ℚ
  cogs : ℚ
  gm_pct : PFloat
deriving DecidableEq

/-- The `type == "actual"` filter shared by the trend metrics. -/
def actualRows (df : List LedgerRow) : List LedgerRow := df.filter (fun r => r.type == "actual")

/-- The grouped sum `df.groupby(["month", "account_category"])["amount_usd"].sum()`
read at one `(month, category)` cell, with the `unstack(fill_value=0)` /
`summary.get(cat, 0)` convention that an absent cell is 0. -/
def categorySum (df : List LedgerRow) (m : ℕ) (cat : String) : ℚ :=
  sumAmounts ((actualRows df).filter (fun r => r.month == m && r.account_category == cat))

/-- Ascending sort of the grouped month keys. -/
def sortNat (l : List ℕ) : List ℕ := List.insertionSort (fun a b => a ≤ b) l

/-- metrics.py `get_gross_margin_trend` (lines 147-171): per (actual-bearing)
month compute revenue, cogs and `gm_pct = (revenue - cogs)/revenue * 100` with
`.replace([pd.NA, inf], 0)`, sort ascending by month and keep the last `n`. -/
def getGrossMarginTrend (df : List LedgerRow) (n : ℕ) : List TrendRow :=
  let months := sortNat (uniqueMonths ((actualRows df).map (fun r => r.month)))
  let rows := months.map (fun m =>
    let revenue := categorySum df m "Revenue"
    let cogs := categorySum df m "COGS"
    { month := m, revenue := revenue, cogs := cogs,
      gm_pct := replaceNaInf0 (gmRatio revenue cogs) : TrendRow })
  rows.drop (rows.length - n)

/-- Runway is either a finite number of months or the sentinel string
`"∞ (profitable / not burning)"`. -/
inductive RunwayVal where
  | months : ℚ → RunwayVal
  | notBurning : RunwayVal
deriving DecidableEq

/-- Return record of `get_cash_runway`. -/
structure RunwayResult where
  latest_month : ℕ
  cash_now : ℚ
  avg_burn : ℚ
  runway_months : RunwayVal
deriving DecidableEq

/-- `cash_df.sort_values("month")`. -/
def sortCash (cash : List CashRow) : List CashRow :=
  List.insertionSort (fun a b => a.month ≤ b.month) cash

/-- Period-over-period differences of a balance column (the non-NaN part of
pandas `diff()`). -/
def deltasOf : List ℚ → List ℚ
  | [] => []
  | [_] => []
  | a :: b :: t => (b - a) :: deltasOf (b :: t)

/-- The full pandas `diff()` column, leading NaN included. -/
def deltaColumn (balances : List ℚ) : List (Option ℚ) :=
  match balances with
  | [] => []
  | _ :: _ => none :: (deltasOf balances).map some

/-- metrics.py `get_cash_runway` (lines 191-214).  `none` models the
`IndexError` raised by `cash_df.iloc[-1]` on an empty table.  The burn is the
negated skipna-mean of the last three entries of the `diff()` column; a NaN
mean (no deltas) or a non-positive burn yields the not-burning sentinel with
`avg_burn` reported as 0; otherwise the runway is `cash_now / avg_burn`
rounded to 1 decimal. -/
def getCashRunway (cash : List CashRow) : Option RunwayResult :=
  let sorted := sortCash cash
  match sorted.getLast? with
  | none => none
  | some latest =>
    let col := deltaColumn (sorted.map (fun r => r.cash_usd))
    let recentOpts := col.drop (col.length - 3)
    let recent := recentOpts.filterMap id
    match recent with
    | [] =>
      some { latest_month := latest.month, cash_now := latest.cash_usd,
             avg_burn := 0, runway_months := RunwayVal.notBurning }
    | ds =>
      let avg_burn : ℚ := -(ds.sum / (ds.length : ℚ))
      if avg_burn ≤ 0 then
        some { latest_month := latest.month, cash_now := latest.cash_usd,
               avg_burn := 0, runway_months := RunwayVal.notBurning }
      else
        some { latest_month := latest.month, cash_now := latest.cash_usd,
               avg_burn := avg_burn,
               runway_months := RunwayVal.months (round1 (latest.cash_usd / avg_burn)) }

/-- Modelled from the spec's words for claim C4: sort by period, `cash_now` =
latest balance, `avg_burn` = negative of the mean of the last 3
period-over-period deltas, `runway = cash_now / avg_burn` rounded to 1
decimal; when `avg_burn ≤ 0` or undefined (fewer than 2 periods), runway is
the not-burning sentinel and `avg_burn` reports 0. -/
def cashRunwaySpec (cash : List CashRow) : RunwayResult :=
  let sorted := sortCash cash
  let latest_month := (sorted.getLast?.map (fun r => r.month)).getD 0
  let cash_now := (sorted.getLast?.map (fun r => r.cash_usd)).getD 0
  let ds := deltasOf (sorted.map (fun r => r.cash_usd))
  let recent := ds.drop (ds.length - 3)
  if recent = [] then
    { latest_month := latest_month, cash_now := cash_now,
      avg_burn := 0, runway_months := RunwayVal.notBurning }
  else
    let avg_burn : ℚ := -(recent.sum / (recent.length : ℚ))
    if avg_burn ≤ 0 then
      { latest_month := latest_month, cash_now := cash_now,
        avg_burn := 0, runway_months := RunwayVal.notBurning }
    else
      { latest_month := latest_month, cash_now := cash_now,
        avg_burn := avg_burn,
        runway_months := RunwayVal.months (round1 (cash_now / avg_burn)) }

/-- Python `str.lower()` (ASCII): lowercase every character. -/
def toLowerStr (s : String) : String := String.mk (s.toList.map Char.toLower)

/-- Python `needle in haystack` on lists of characters: `listPfx` is the
"starts with" check it scans with. -/
def listPfx : List Char → List Char → Bool
  | [], _ => true
  | _ :: _, [] => false
  | a :: as, b :: bs => a == b && listPfx as bs

/-- Substring containment, scanning every start position. -/
def containsSub (hay needle : List Char) : Bool :=
  match hay with
  | [] => needle.isEmpty
  | _ :: t => listPfx needle hay || containsSub t needle

/-- Python `needle in haystack` on strings. -/
def containsStr (hay needle : String) : Bool := containsSub hay.toList needle.toList

/-- planner.py `classify_query` (lines 4-20): lowercase the query, then test
the keyword predicates in order and return the first match, `none` if no
predicate matches. -/
def classifyQuery (query : String) : Option String :=
  let q := toLowerStr query
  if containsStr q "revenue" && containsStr q "budget" then some "revenue_vs_budget"
  else if containsStr q "gross margin" || containsStr q "gm" then some "gross_margin_trend"
  else if containsStr q "opex" then some "opex_breakdown"
  else if containsStr q "cash" && containsStr q "runway" then some "cash_runway"
  else none

/-- Digit test of the regex class `\d` (ASCII). -/
def isDig (c : Char) : Bool := c.isDigit

/-- Numeric value of a digit character. -/
def digVal (c : Char) : ℕ := c.toNat - 48

/-- Whitespace test of the regex class `\s`. -/
def isSpaceChar (c : Char) : Bool :=
  c == ' ' || c == '\t' || c == '\n' || c == '\x0d' || c == '\x0b' || c == '\x0c'

/-- One anchored attempt of the year-month regex of planner.py line 29: four
digits, a dash or slash, then greedily two digits else one. -/
def tryYM (l : List Char) : Option (ℕ × ℕ) :=
  match l with
  | a :: b :: c :: d :: s :: rest =>
    if isDig a && isDig b && isDig c && isDig d && (s == '-' || s == '/') then
      let y := ((digVal a * 10 + digVal b) * 10 + digVal c) * 10 + digVal d
      match rest with
      | e :: f :: _ =>
        if isDig e then
          if isDig f then some (y, digVal e * 10 + digVal f) else some (y, digVal e)
        else none
      | [e] => if isDig e then some (y, digVal e) else none
      | [] => none
    else none
  | _ => none

/-- `re.search` for the year-month pattern: try each start position left to
right. -/
def searchYM : List Char → Option (ℕ × ℕ)
  | [] => none
  | c :: rest =>
    match tryYM (c :: rest) with
    | some r => some r
    | none => searchYM rest

/-- The alternation `(jan|feb|mar|apr|may|jun|jul|aug|sep|oct|nov|dec)` with
each name's month number. -/
def monthNames : List (List Char × ℕ) :=
  [(['j','a','n'], 1), (['f','e','b'], 2), (['m','a','r'], 3), (['a','p','r'], 4),
   (['m','a','y'], 5), (['j','u','n'], 6), (['j','u','l'], 7), (['a','u','g'], 8),
   (['s','e','p'], 9), (['o','c','t'], 10), (['n','o','v'], 11), (['d','e','c'], 12)]

/-- One anchored attempt of `(jan|...|dec)[a-z]*\s+(\d{4})` on the lowercased
query: a month-name alternative, trailing lowercase letters, at least one
whitespace, then four digits giving the year. -/
def tryMonthName (l : List Char) : Option (ℕ × ℕ) :=
  match monthNames.find? (fun p => listPfx p.1 l) with
  | none => none
  | some p =>
    let afterName := l.drop 3
    let afterWord := afterName.dropWhile (fun c => c.isLower)
    match afterWord with
    | c :: rest =>
      if isSpaceChar c then
        match rest.dropWhile isSpaceChar with
        | a :: b :: c2 :: d :: _ =>
          if isDig a && isDig b && isDig c2 && isDig d then
            some (p.2, ((digVal a * 10 + digVal b) * 10 + digVal c2) * 10 + digVal d)
          else none
        | _ => none
      else none
    | [] => none

/-- `re.search` for the month-name pattern. -/
def searchMonthName : List Char → Option (ℕ × ℕ)
  | [] => none
  | c :: rest =>
    match tryMonthName (c :: rest) with
    | some r => some r
    | none => searchMonthName rest

/-- Left-pad a decimal representation with zeros. -/
def padZeros (s : String) (k : ℕ) : String :=
  String.mk (List.replicate (k - s.length) '0') ++ s

/-- `pd.Period(year=y, month=m, freq="M").strftime("%Y-%m")`: the period
ordinal is computed arithmetically with no range check on `m` (so month 13 of
2023 is January 2024), then printed as zero-padded year and month. -/
def canonPeriod (y m : ℕ) : String :=
  let t : ℤ := (y : ℤ) * 12 + (m : ℤ) - 1
  let yOut := t.ediv 12
  let mOut := t.emod 12 + 1
  padZeros (toString yOut.toNat) 4 ++ "-" ++ padZeros (toString mOut.toNat) 2

/-- planner.py `extract_month` (lines 23-44): first the numeric year-month
pattern (dash or slash separator) on the raw query, then the month-name
pattern on the lowercased query, else `None`. -/
def extractMonth (query : String) : Option String :=
  match searchYM query.toList with
  | some (y, m) => some (canonPeriod y m)
  | none =>
    match searchMonthName (toLowerStr query).toList with
    | some (m, y) => some (canonPeriod y m)
    | none => none

/-- One anchored attempt of `last\s+(\d+)\s+month`. -/
def tryLastN (l : List Char) : Option ℕ :=
  if listPfx ['l','a','s','t'] l then
    match (l.drop 4) with
    | c :: rest =>
      if isSpaceChar c then
        let afterWs := rest.dropWhile isSpaceChar
        let digits := afterWs.takeWhile isDig
        match digits with
        | [] => none
        | _ :: _ =>
          match afterWs.dropWhile isDig with
          | c2 :: rest2 =>
            if isSpaceChar c2 then
              if listPfx ['m','o','n','t','h'] (rest2.dropWhile isSpaceChar) then
                some (digits.foldl (fun a c3 => a * 10 + digVal c3) 0)
              else none
            else none
          | [] => none
      else none
    | [] => none
  else none

/-- `re.search` for the trailing-window pattern. -/
def searchLastN : List Char → Option ℕ
  | [] => none
  | c :: rest =>
    match tryLastN (c :: rest) with
    | some r => some r
    | none => searchLastN rest

/-- planner.py `extract_n_months` (lines 47-54): the window `N` from
`last N month(s)` on the lowercased query, defaulting to 3. -/
def extractNMonths (query : String) : ℕ :=
  match searchLastN (toLowerStr query).toList with
  | some n => n
  | none => 3

/-- The sum of `amount_usd` over Revenue rows of one month and one entry
type, as the claims phrase it; the metric computes the same sums through two
chained filters. -/
def revenueSum (df : List LedgerRow) (m : ℕ) (ty : String) : ℚ :=
  sumAmounts (df.filter (fun r =>
    (r.month == m && r.account_category == "Revenue") && r.type == ty))

theorem roundHalfEven_low (x : ℚ) (z : ℤ) (h1 : (z : ℚ) ≤ x) (h2 : x - (z : ℚ) < 1/2) :
    roundHalfEven x = z := by
  have hf : ⌊x⌋ = z := Int.floor_eq_iff.2 ⟨h1, by linarith⟩
  unfold roundHalfEven
  rw [hf, if_pos h2]

theorem round2_eval (x : ℚ) (z : ℤ) (h1 : (z : ℚ) ≤ x * 100) (h2 : x * 100 - (z : ℚ) < 1/2) :
    round2 x = (z : ℚ) / 100 := by
  unfold round2
  rw [roundHalfEven_low (x * 100) z h1 h2]

theorem round1_eval (x : ℚ) (z : ℤ) (h1 : (z : ℚ) ≤ x * 10) (h2 : x * 10 - (z : ℚ) < 1/2) :
    round1 x = (z : ℚ) / 10 := by
  unfold round1
  rw [roundHalfEven_low (x * 10) z h1 h2]

theorem mem_uniqueFirstAux {a : ℕ} :
    ∀ {l seen : List ℕ}, a ∈ uniqueFirstAux l seen ↔ (a ∈ l ∧ a ∉ seen) := by
  intro l
  induction l with
  | nil => intro seen; simp [uniqueFirstAux]
  | cons b t ih =>
    intro seen
    by_cases hb : b ∈ seen
    · simp only [uniqueFirstAux, if_pos hb, ih, List.mem_cons]
      constructor
      · rintro ⟨h1, h2⟩; exact ⟨Or.inr h1, h2⟩
      · rintro ⟨h1 | h1, h2⟩
        · exact absurd (by rw [h1]; exact hb) h2
        · exact ⟨h1, h2⟩
    · simp only [uniqueFirstAux, if_neg hb, List.mem_cons, ih]
      constructor
      · rintro (rfl | ⟨h1, h2⟩)
        · exact ⟨Or.inl rfl, hb⟩
        · exact ⟨Or.inr h1, fun hs => h2 (Or.inr hs)⟩
      · rintro ⟨rfl | h1, h2⟩
        · exact Or.inl rfl
        · by_cases hab : a = b
          · exact Or.inl hab
          · exact Or.inr ⟨h1, fun hs => hs.elim hab h2⟩

theorem filter_filter_comb {α : Type} (p q : α → Bool) :
    ∀ l : List α, (l.filter p).filter q = l.filter (fun r => p r && q r) := by
  intro l
  induction l with
  | nil => rfl
  | cons a t ih => by_cases hp : p a <;> by_cases hq : q a <;> simp [List.filter, hp, hq, ih]

theorem filterMap_id_map_some {α : Type} (l : List α) : (l.map some).filterMap id = l := by
  induction l with
  | nil => rfl
  | cons a t ih => simp [ih]

theorem mem_of_getLastQ {α : Type} : ∀ {l : List α} {a : α}, l.getLast? = some a → a ∈ l := by
  intro l
  induction l with
  | nil => intro a h; simp [List.getLast?] at h
  | cons b t ih =>
    intro a h
    cases t with
    | nil => simp [List.getLast?] at h; simp [h]
    | cons c u =>
      rw [List.getLast?_cons_cons] at h
      exact List.mem_cons_of_mem _ (ih h)

theorem exists_getLastQ {α : Type} {l : List α} (h : l ≠ []) : ∃ a, l.getLast? = some a := by
  cases l with
  | nil => exact absurd rfl h
  | cons b t => exact ⟨(b :: t).getLast (by simp), List.getLast?_eq_getLast _ _⟩

theorem sortCash_ne_nil {cash : List CashRow} (h : cash ≠ []) : sortCash cash ≠ [] := by
  intro h0
  exact h (((List.perm_insertionSort (fun a b => a.month ≤ b.month) cash).symm.trans
    (h0 ▸ List.Perm.refl _)).eq_nil)

theorem rvb_fields (df : List LedgerRow) (m : ℕ) :
    getRevenueVsBudget df m =
      { month := m,
        actual := round2 (revenueSum df m "actual"),
        budget := round2 (revenueSum df m "budget"),
        variance := round2 (revenueSum df m "actual" - revenueSum df m "budget"),
        variance_pct :=
          if revenueSum df m "budget" = 0 then none
          else some (round2 ((revenueSum df m "actual" - revenueSum df m "budget")
            / revenueSum df m "budget" * 100)) } := by
  simp only [getRevenueVsBudget, revenueSum]
  rw [filter_filter_comb, filter_filter_comb]
  by_cases h : sumAmounts (df.filter (fun r =>
      (r.month == m && r.account_category == "Revenue") && r.type == "budget")) = 0 <;>
    simp [h]

theorem trend_mem {df : List LedgerRow} {n : ℕ} {row : TrendRow}
    (h : row ∈ getGrossMarginTrend df n) :
    ∃ m, row = { month := m,
                 revenue := categorySum df m "Revenue",
                 cogs := categorySum df m "COGS",
                 gm_pct := replaceNaInf0 (gmRatio (categorySum df m "Revenue")
                   (categorySum df m "COGS")) } := by
  unfold getGrossMarginTrend at h
  have h2 := List.mem_of_mem_drop h
  obtain ⟨m, _, heq⟩ := List.mem_map.1 h2
  exact ⟨m, heq.symm⟩

theorem runway_latest {cash : List CashRow} {r : RunwayResult}
    (h : getCashRunway cash = some r) :
    ∃ latest, (sortCash cash).getLast? = some latest ∧
      r.cash_now = latest.cash_usd ∧ r.latest_month = latest.month := by
  simp only [getCashRunway] at h
  split at h
  · exact absurd h (by simp)
  · rename_i latest heq
    refine ⟨latest, heq, ?_⟩
    split at h
    · cases h; exact ⟨rfl, rfl⟩
    · split at h
      · cases h; exact ⟨rfl, rfl⟩
      · cases h; exact ⟨rfl, rfl⟩

theorem recent_deltas_eq (bs : List ℚ) (hbs : bs ≠ []) :
    ((deltaColumn bs).drop ((deltaColumn bs).length - 3)).filterMap id
      = (deltasOf bs).drop ((deltasOf bs).length - 3) := by
  cases bs with
  | nil => exact absurd rfl hbs
  | cons b t =>
    show ((none :: (deltasOf (b :: t)).map some).drop
        ((none :: (deltasOf (b :: t)).map some).length - 3)).filterMap id
      = (deltasOf (b :: t)).drop ((deltasOf (b :: t)).length - 3)
    set ds := deltasOf (b :: t) with hds
    rcases Nat.lt_or_ge ds.length 3 with hlen | hlen
    · have h1 : (none :: ds.map some).length - 3 = 0 := by simp; omega
      have h2 : ds.length - 3 = 0 := by omega
      rw [h1, h2, List.drop_zero, List.drop_zero]
      simp [filterMap_id_map_some]
    · have h1 : (none :: ds.map some).length - 3 = (ds.length - 3) + 1 := by simp; omega
      rw [h1, List.drop_succ_cons]
      rw [← List.map_drop, filterMap_id_map_some]

/-- C1 counterexample: the claim says every distinct period of the raw FX
table has a USD identity row after normalization.  On a table that already
holds a USD identity row for period 1 but only an EUR rate for period 2, the
normalizer (whose guard is a global `.any()`) returns the table unchanged and
period 2 has no USD row. -/
theorem claim1_counterexample :
    normalizeFx [⟨1, "USD", 1⟩, ⟨2, "EUR", 9/10⟩] = [⟨1, "USD", 1⟩, ⟨2, "EUR", 9/10⟩] ∧
    (∃ r ∈ normalizeFx [⟨1, "USD", 1⟩, ⟨2, "EUR", 9/10⟩], r.month = 2) ∧
    ¬ (∃ r ∈ normalizeFx [⟨1, "USD", 1⟩, ⟨2, "EUR", 9/10⟩],
        r.month = 2 ∧ r.currency = "USD" ∧ r.rate_to_usd = 1) := by
  have hUSD : normalizeFx [⟨1, "USD", 1⟩, ⟨2, "EUR", 9/10⟩]
      = [⟨1, "USD", 1⟩, ⟨2, "EUR", 9/10⟩] := by
    simp [normalizeFx, isUsdOne]
  refine ⟨hUSD, ⟨⟨2, "EUR", 9/10⟩, by rw [hUSD]; simp, rfl⟩, ?_⟩
  rw [hUSD]
  rintro ⟨r, hr, hm, hc, hv⟩
  rcases List.mem_cons.1 hr with rfl | hr2
  · exact absurd hm (by norm_num)
  rcases List.mem_cons.1 hr2 with rfl | hr3
  · exact absurd hc (by simp)
  · simp at hr3

/-- C1 (amended): if the raw FX table holds no `(USD, 1.0)` row at all, then
after the Currency Normalizer runs every distinct period present has a USD
identity row; if any `(USD, 1.0)` row exists anywhere, the table is returned
unchanged (so other periods may lack a USD row). -/
theorem claim1_usd_identity (fx : List FxRow) :
    (fx.any isUsdOne = true → normalizeFx fx = fx) ∧
    (fx.any isUsdOne = false →
      ∀ m, (∃ r ∈ normalizeFx fx, r.month = m) →
        ∃ r ∈ normalizeFx fx, r.month = m ∧ r.currency = "USD" ∧ r.rate_to_usd = 1) := by
  constructor
  · intro h; simp [normalizeFx, h]
  · intro h m hm
    have hnf : normalizeFx fx
        = fx ++ (uniqueMonths (fx.map (fun r => r.month))).map
            (fun mo => (⟨mo, "USD", 1⟩ : FxRow)) := by
      simp [normalizeFx, h]
    obtain ⟨r, hr, hrm⟩ := hm
    rw [hnf] at hr ⊢
    rcases List.mem_append.1 hr with hfx | happ
    · refine ⟨⟨m, "USD", 1⟩, ?_, rfl, rfl, rfl⟩
      refine List.mem_append_right _ (List.mem_map.2 ⟨m, ?_, rfl⟩)
      have hmm : m ∈ fx.map (fun r => r.month) := List.mem_map.2 ⟨r, hfx, hrm⟩
      simpa [uniqueMonths, mem_uniqueFirstAux] using hmm
    · obtain ⟨m2, hm2, heq⟩ := List.mem_map.1 happ
      refine ⟨r, List.mem_append_right _ happ, hrm, ?_, ?_⟩ <;> rw [← heq]

/-- C1 witness: on a table with a single EUR rate and no USD row, period 1
gains a USD identity row. -/
theorem claim1_usd_identity_witness :
    ∃ r ∈ normalizeFx [(⟨1, "EUR", 9/10⟩ : FxRow)],
      r.month = 1 ∧ r.currency = "USD" ∧ r.rate_to_usd = 1 :=
  (claim1_usd_identity [⟨1, "EUR", 9/10⟩]).2 (by decide) 1 (by decide)

/-- C2 counterexample: the claim says an undefined `gm_pct` is returned as an
absent/null value, never as 0, an infinity or NaN.  A month holding only a
COGS actual of 400 (revenue 0) yields `gm_pct = -inf`, and a month with a
zero-revenue actual row (0/0) yields `gm_pct = 0`. -/
theorem claim2_counterexample :
    getGrossMarginTrend [⟨1, "e", "COGS", "actual", some 400⟩] 3
      = [{ month := 1, revenue := 0, cogs := 400, gm_pct := PFloat.negInf }] ∧
    getGrossMarginTrend [⟨1, "e", "Revenue", "actual", some 0⟩] 3
      = [{ month := 1, revenue := 0, cogs := 0, gm_pct := PFloat.num 0 }] := by
  constructor <;>
    (simp [getGrossMarginTrend, actualRows, uniqueMonths, uniqueFirstAux, sortNat,
      categorySum, sumAmounts, gmRatio, replaceNaInf0, List.insertionSort,
      List.orderedInsert]; try norm_num)

/-- C2 (amended): a mathematically undefined `gm_pct` is never an absent/null
value: for a period with zero revenue the returned `gm_pct` is 0 when
`cogs ≤ 0` (the NaN and +inf cases are replaced by 0) and `-inf` when
`cogs > 0` (which leaks past the replace); when revenue is nonzero the exact
ratio is returned. -/
theorem claim2_gm_undefined (df : List LedgerRow) (n : ℕ) (row : TrendRow)
    (h : row ∈ getGrossMarginTrend df n) :
    row.gm_pct = (if row.revenue = 0 then
        (if 0 < row.cogs then PFloat.negInf else PFloat.num 0)
      else PFloat.num ((row.revenue - row.cogs) / row.revenue * 100)) := by
  obtain ⟨m, rfl⟩ := trend_mem h
  show replaceNaInf0 (gmRatio (categorySum df m "Revenue") (categorySum df m "COGS")) = _
  by_cases hR : categorySum df m "Revenue" = 0
  · rcases lt_trichotomy 0 (categorySum df m "COGS") with hC | hC | hC
    · simp [gmRatio, replaceNaInf0, hR, hC, hC.ne', not_lt.2 hC.le]
    · simp [gmRatio, replaceNaInf0, hR, ← hC]
    · simp [gmRatio, replaceNaInf0, hR, hC, hC.ne, not_lt.2 hC.le]
  · simp [gmRatio, replaceNaInf0, hR]

/-- C2 witness: the negInf row of the counterexample dataset instantiates the
amended statement. -/
theorem claim2_gm_undefined_witness :
    (⟨1, 0, 400, PFloat.negInf⟩ : TrendRow).gm_pct
      = (if (⟨1, 0, 400, PFloat.negInf⟩ : TrendRow).revenue = 0 then
          (if 0 < (⟨1, 0, 400, PFloat.negInf⟩ : TrendRow).cogs then PFloat.negInf
           else PFloat.num 0)
         else PFloat.num (((⟨1, 0, 400, PFloat.negInf⟩ : TrendRow).revenue
             - (⟨1, 0, 400, PFloat.negInf⟩ : TrendRow).cogs)
           / (⟨1, 0, 400, PFloat.negInf⟩ : TrendRow).revenue * 100)) :=
  claim2_gm_undefined [⟨1, "e", "COGS", "actual", some 400⟩] 3
    ⟨1, 0, 400, PFloat.negInf⟩ (by
      simp [getGrossMarginTrend, actualRows, uniqueMonths, uniqueFirstAux, sortNat,
        categorySum, sumAmounts, gmRatio, replaceNaInf0, List.insertionSort,
        List.orderedInsert]
      norm_num)

/-- C3: `revenue_vs_budget` sums `amount_usd` over the Revenue rows of the
month split by entry type, returns `variance = actual - budget` and
`variance_pct = variance / budget * 100` (rounded to 2 decimals), returns
`variance_pct` as null when the budget sum is 0, and on actual=1000,
budget=1200 yields variance -200 and variance_pct -16.67. -/
theorem claim3_revenue_vs_budget :
    (∀ (df : List LedgerRow) (m : ℕ),
      (getRevenueVsBudget df m).actual = round2 (revenueSum df m "actual") ∧
      (getRevenueVsBudget df m).budget = round2 (revenueSum df m "budget") ∧
      (getRevenueVsBudget df m).variance
        = round2 (revenueSum df m "actual" - revenueSum df m "budget") ∧
      (revenueSum df m "budget" = 0 → (getRevenueVsBudget df m).variance_pct = none) ∧
      (revenueSum df m "budget" ≠ 0 → (getRevenueVsBudget df m).variance_pct
        = some (round2 ((revenueSum df m "actual" - revenueSum df m "budget")
            / revenueSum df m "budget" * 100)))) ∧
    getRevenueVsBudget
      [⟨1, "ParentCo", "Revenue", "actual", some 1000⟩,
       ⟨1, "ParentCo", "Revenue", "budget", some 1200⟩] 1
      = { month := 1, actual := 1000, budget := 1200, variance := -200,
          variance_pct := some (-1667/100) } := by
  constructor
  · intro df m
    refine ⟨by rw [rvb_fields], by rw [rvb_fields], by rw [rvb_fields], ?_, ?_⟩
    · intro h; rw [rvb_fields]; simp [h]
    · intro h; rw [rvb_fields]; simp [h]
  · rw [rvb_fields]
    have e1 : revenueSum
        [⟨1, "ParentCo", "Revenue", "actual", some 1000⟩,
         ⟨1, "ParentCo", "Revenue", "budget", some 1200⟩] 1 "actual" = 1000 := by
      simp [revenueSum, sumAmounts]
    have e2 : revenueSum
        [⟨1, "ParentCo", "Revenue", "actual", some 1000⟩,
         ⟨1, "ParentCo", "Revenue", "budget", some 1200⟩] 1 "budget" = 1200 := by
      simp [revenueSum, sumAmounts]
    rw [e1, e2]
    have r1 : round2 (1000 : ℚ) = 1000 := by
      rw [round2_eval 1000 100000 (by norm_num) (by norm_num)]; norm_num
    have r2 : round2 (1200 : ℚ) = 1200 := by
      rw [round2_eval 1200 120000 (by norm_num) (by norm_num)]; norm_num
    have r3 : round2 ((1000 : ℚ) - 1200) = -200 := by
      rw [round2_eval (1000 - 1200) (-20000) (by norm_num) (by norm_num)]; norm_num
    have r4 : round2 (-(50/3) : ℚ) = -(1667/100) := by
      rw [round2_eval (-(50/3) : ℚ) (-1667) (by norm_num) (by norm_num)]
      norm_num
    rw [r1, r2, r3]
    norm_num [r4]

/-- C3 witness: a ledger with no budget rows has a null variance_pct. -/
theorem claim3_revenue_vs_budget_witness :
    (getRevenueVsBudget [(⟨1, "ParentCo", "Revenue", "actual", some 1000⟩ : LedgerRow)] 1).variance_pct
      = none :=
  (claim3_revenue_vs_budget.1 [⟨1, "ParentCo", "Revenue", "actual", some 1000⟩] 1).2.2.2.1
    (by decide)

/-- C5: the claim says no core operation raises on any input.  On an empty
cash table `get_cash_runway` evaluates `cash_df.iloc[-1]`, which raises
`IndexError` (modelled here by `none`); and `extract_month` on the malformed
month "2023-13" neither raises nor reports not-found: the unchecked pandas
`Period` arithmetic wraps it to "2024-01". -/
theorem claim5_runway_empty_raises :
    getCashRunway [] = none ∧ extractMonth "2023-13" = some "2024-01" := by
  exact ⟨rfl, by decide⟩

theorem convert_cases {fx : List FxRow} {tag : String} {r : RawRow} {row : LedgerRow}
    (h : row ∈ convertRow fx tag r) :
    row.month = r.month ∧ row.type = tag ∧
    ((fxMatches fx r.month r.currency = [] ∧ row.amount_usd = none) ∨
     (∃ rate ∈ fxMatches fx r.month r.currency, row.amount_usd = some (r.amount * rate))) := by
  unfold convertRow at h
  split at h
  · rename_i heq
    simp only [List.mem_singleton] at h
    subst h
    exact ⟨rfl, rfl, Or.inl ⟨heq, rfl⟩⟩
  · obtain ⟨rate, hrate, hrow⟩ := List.mem_map.1 h
    subst hrow
    exact ⟨rfl, rfl, Or.inr ⟨rate, hrate, rfl⟩⟩

/-- C4: `cash_runway` sorts by period, takes `cash_now` from the latest row,
negates the skipna-mean of the last 3 period-over-period deltas, and either
rounds `cash_now / avg_burn` to 1 decimal or reports the not-burning sentinel
with `avg_burn = 0` when the burn is non-positive or undefined; cash
[10000, 9000, 8000] gives `avg_burn = 1000` and `runway_months = 8.0`. -/
theorem claim4_cash_runway :
    (∀ cash : List CashRow, cash ≠ [] → getCashRunway cash = some (cashRunwaySpec cash)) ∧
    getCashRunway [⟨1, "Consolidated", 10000⟩, ⟨2, "Consolidated", 9000⟩,
        ⟨3, "Consolidated", 8000⟩]
      = some { latest_month := 3, cash_now := 8000, avg_burn := 1000,
               runway_months := RunwayVal.months 8 } := by
  constructor
  · intro cash hc
    have hs := sortCash_ne_nil hc
    obtain ⟨latest, hl⟩ := exists_getLastQ hs
    have hbs : (sortCash cash).map (fun r => r.cash_usd) ≠ [] := by
      intro h0
      rw [List.map_eq_nil_iff] at h0
      exact hs h0
    have hrec := recent_deltas_eq ((sortCash cash).map (fun r => r.cash_usd)) hbs
    simp only [getCashRunway, cashRunwaySpec, hl, hrec, Option.map_some', Option.getD_some]
    cases hrec2 : (deltasOf ((sortCash cash).map (fun r => r.cash_usd))).drop
        ((deltasOf ((sortCash cash).map (fun r => r.cash_usd))).length - 3) with
    | nil => simp
    | cons d t => simp [apply_ite]
  · have hr : round1 (8 : ℚ) = 8 := by
      rw [round1_eval (8 : ℚ) 80 (by norm_num) (by norm_num)]
      norm_num
    simp [getCashRunway, sortCash, List.insertionSort, List.orderedInsert, deltaColumn,
      deltasOf]
    norm_num [hr]

/-- C4 witness: the refinement instantiated on a one-row cash table. -/
theorem claim4_cash_runway_witness :
    getCashRunway [(⟨1, "e", 100⟩ : CashRow)] = some (cashRunwaySpec [⟨1, "e", 100⟩]) :=
  claim4_cash_runway.1 [⟨1, "e", 100⟩] (by simp)

/-- C6 counterexample: the claim says every monetary field, `cash_now`
included, is rounded to 2 decimals at the point of return; but `cash_runway`
returns the raw latest balance 1000.123 unrounded. -/
theorem claim6_counterexample :
    getCashRunway [⟨1, "e", 1000123/1000⟩]
      = some { latest_month := 1, cash_now := 1000123/1000, avg_burn := 0,
               runway_months := RunwayVal.notBurning } ∧
    round2 (1000123/1000 : ℚ) ≠ 1000123/1000 := by
  constructor
  · rfl
  · rw [round2_eval (1000123/1000 : ℚ) 100012 (by norm_num) (by norm_num)]
    norm_num

/-- C6 (amended): the monetary fields of `revenue_vs_budget` are rounded to 2
decimals at the point of return, but `cash_runway` returns `cash_now` as the
raw balance of a cash row (unrounded), and the gross-margin trend returns the
raw per-month revenue and cogs sums (unrounded). -/
theorem claim6_rounding :
    (∀ (df : List LedgerRow) (m : ℕ),
      (getRevenueVsBudget df m).actual = round2 (revenueSum df m "actual") ∧
      (getRevenueVsBudget df m).budget = round2 (revenueSum df m "budget") ∧
      (getRevenueVsBudget df m).variance
        = round2 (revenueSum df m "actual" - revenueSum df m "budget")) ∧
    (∀ (cash : List CashRow) (r : RunwayResult), getCashRunway cash = some r →
      ∃ row ∈ cash, r.cash_now = row.cash_usd) ∧
    (∀ (df : List LedgerRow) (n : ℕ) (row : TrendRow), row ∈ getGrossMarginTrend df n →
      row.revenue = categorySum df row.month "Revenue" ∧
      row.cogs = categorySum df row.month "COGS") := by
  refine ⟨?_, ?_, ?_⟩
  · intro df m
    exact ⟨by rw [rvb_fields], by rw [rvb_fields], by rw [rvb_fields]⟩
  · intro cash r h
    obtain ⟨latest, hl, hcn, _⟩ := runway_latest h
    have hmem : latest ∈ sortCash cash := mem_of_getLastQ hl
    unfold sortCash at hmem
    exact ⟨latest, (List.mem_insertionSort _).1 hmem, hcn⟩
  · intro df n row h
    obtain ⟨m, rfl⟩ := trend_mem h
    exact ⟨rfl, rfl⟩

/-- C6 witness: the cash_now of a one-row cash table is that row's raw
balance. -/
theorem claim6_rounding_witness :
    ∃ row ∈ [(⟨1, "e", 5⟩ : CashRow)],
      ({ latest_month := 1, cash_now := 5, avg_burn := 0,
         runway_months := RunwayVal.notBurning } : RunwayResult).cash_now = row.cash_usd :=
  claim6_rounding.2.1 [⟨1, "e", 5⟩]
    { latest_month := 1, cash_now := 5, avg_burn := 0,
      runway_months := RunwayVal.notBurning } rfl

/-- C7: every row the Ledger Unifier produces comes from a raw actuals or
budget row; when the `(month, currency)` key of that raw row has matching FX
rates the produced `amount_usd` is exactly `amount * rate_to_usd` for one of
them, and when there is no matching rate it is missing (`none`), never
coerced to zero. -/
theorem claim7_fx_conversion (actuals budget : List RawRow) (fx : List FxRow)
    (row : LedgerRow) (h : row ∈ unifyLedger actuals budget fx) :
    ∃ r tag, ((tag = "actual" ∧ r ∈ actuals) ∨ (tag = "budget" ∧ r ∈ budget)) ∧
      row.month = r.month ∧ row.type = tag ∧
      ((fxMatches (normalizeFx fx) r.month r.currency = [] ∧ row.amount_usd = none) ∨
       (∃ rate ∈ fxMatches (normalizeFx fx) r.month r.currency,
          row.amount_usd = some (r.amount * rate))) := by
  have hsplit : row ∈ (actuals.map (convertRow (normalizeFx fx) "actual")).flatten ∨
      row ∈ (budget.map (convertRow (normalizeFx fx) "budget")).flatten := by
    simpa [unifyLedger] using h
  rcases hsplit with hA | hB
  · obtain ⟨l, hl, hrow⟩ := List.mem_flatten.1 hA
    obtain ⟨r, hr, rfl⟩ := List.mem_map.1 hl
    obtain ⟨hm, ht, hd⟩ := convert_cases hrow
    exact ⟨r, "actual", Or.inl ⟨rfl, hr⟩, hm, ht, hd⟩
  · obtain ⟨l, hl, hrow⟩ := List.mem_flatten.1 hB
    obtain ⟨r, hr, rfl⟩ := List.mem_map.1 hl
    obtain ⟨hm, ht, hd⟩ := convert_cases hrow
    exact ⟨r, "budget", Or.inr ⟨rfl, hr⟩, hm, ht, hd⟩

/-- C7 witness: a EUR actuals row converted at rate 0.9 produces
`amount_usd = 100 * 0.9`. -/
theorem claim7_fx_conversion_witness :
    ∃ r tag, ((tag = "actual" ∧ r ∈ [(⟨1, "e", "Revenue", "EUR", 100⟩ : RawRow)]) ∨
        (tag = "budget" ∧ r ∈ ([] : List RawRow))) ∧
      (⟨1, "e", "Revenue", "actual", some 90⟩ : LedgerRow).month = r.month ∧
      (⟨1, "e", "Revenue", "actual", some 90⟩ : LedgerRow).type = tag ∧
      ((fxMatches (normalizeFx [⟨1, "EUR", 9/10⟩]) r.month r.currency = [] ∧
          (⟨1, "e", "Revenue", "actual", some 90⟩ : LedgerRow).amount_usd = none) ∨
       (∃ rate ∈ fxMatches (normalizeFx [⟨1, "EUR", 9/10⟩]) r.month r.currency,
          (⟨1, "e", "Revenue", "actual", some 90⟩ : LedgerRow).amount_usd
            = some (r.amount * rate))) :=
  claim7_fx_conversion [⟨1, "e", "Revenue", "EUR", 100⟩] [] [⟨1, "EUR", 9/10⟩]
    ⟨1, "e", "Revenue", "actual", some 90⟩
    (by simp [unifyLedger, normalizeFx, isUsdOne, uniqueMonths, uniqueFirstAux, convertRow,
      fxMatches]
        norm_num)

/-- C8: the classifier tests its keyword predicates in the fixed order
revenue+budget, gross margin or gm, opex, cash+runway, returns the first
match, and returns a null intent when none match; in particular any text
containing both "revenue" and "budget" classifies as revenue_vs_budget. -/
theorem claim8_classifier_order (q : String) :
    ((containsStr (toLowerStr q) "revenue" && containsStr (toLowerStr q) "budget") = true →
      classifyQuery q = some "revenue_vs_budget") ∧
    ((containsStr (toLowerStr q) "revenue" && containsStr (toLowerStr q) "budget") = false →
      (containsStr (toLowerStr q) "gross margin" || containsStr (toLowerStr q) "gm") = true →
      classifyQuery q = some "gross_margin_trend") ∧
    ((containsStr (toLowerStr q) "revenue" && containsStr (toLowerStr q) "budget") = false →
      (containsStr (toLowerStr q) "gross margin" || containsStr (toLowerStr q) "gm") = false →
      containsStr (toLowerStr q) "opex" = true →
      classifyQuery q = some "opex_breakdown") ∧
    ((containsStr (toLowerStr q) "revenue" && containsStr (toLowerStr q) "budget") = false →
      (containsStr (toLowerStr q) "gross margin" || containsStr (toLowerStr q) "gm") = false →
      containsStr (toLowerStr q) "opex" = false →
      (containsStr (toLowerStr q) "cash" && containsStr (toLowerStr q) "runway") = true →
      classifyQuery q = some "cash_runway") ∧
    ((containsStr (toLowerStr q) "revenue" && containsStr (toLowerStr q) "budget") = false →
      (containsStr (toLowerStr q) "gross margin" || containsStr (toLowerStr q) "gm") = false →
      containsStr (toLowerStr q) "opex" = false →
      (containsStr (toLowerStr q) "cash" && containsStr (toLowerStr q) "runway") = false →
      classifyQuery q = none) := by
  refine ⟨?_, ?_, ?_, ?_, ?_⟩
  · intro h1; simp [classifyQuery, h1]
  · intro h1 h2; simp [classifyQuery, h1, h2]
  · intro h1 h2 h3; simp [classifyQuery, h1, h2, h3]
  · intro h1 h2 h3 h4; simp [classifyQuery, h1, h2, h3, h4]
  · intro h1 h2 h3 h4; simp [classifyQuery, h1, h2, h3, h4]

/-- C8 witness: a query containing "gross margin" and "opex" but also both
"revenue" and "budget" still classifies as revenue_vs_budget. -/
theorem claim8_classifier_order_witness :
    classifyQuery "gross margin opex revenue versus budget" = some "revenue_vs_budget" :=
  (claim8_classifier_order "gross margin opex revenue versus budget").1 (by decide)

/-- C9: "2023-1" and "2023/01" resolve to the same canonical period,
"June 2025" resolves to 2025-06; the window extractor returns N for "last N
month(s)" case-insensitively and returns the default 3 when the pattern is
absent. -/
theorem claim9_extraction :
    extractMonth "2023-1" = some "2023-01" ∧
    extractMonth "2023/01" = some "2023-01" ∧
    extractMonth "June 2025" = some "2025-06" ∧
    extractNMonths "show LAST 6 MONTHS please" = 6 ∧
    extractNMonths "last 12 month window" = 12 ∧
    (∀ q : String, searchLastN (toLowerStr q).toList = none → extractNMonths q = 3) := by
  refine ⟨by decide, by decide, by decide, by decide, by decide, ?_⟩
  intro q h
  have h2 : searchLastN (toLowerStr q).data = none := h
  simp [extractNMonths, h2]

/-- C9 witness: a query with no trailing-window pattern defaults to 3. -/
theorem claim9_extraction_witness : extractNMonths "revenue please" = 3 :=
  claim9_extraction.2.2.2.2.2 "revenue please" (by decide)

/-- C10: the classifier matches "gm" as a raw substring of the lowercased
query, so any query containing "gm" (inside a longer word included) that does
not contain both "revenue" and "budget" classifies as gross_margin_trend. -/
theorem claim10_gm_substring (q : String)
    (h1 : (containsStr (toLowerStr q) "revenue" && containsStr (toLowerStr q) "budget") = false)
    (h2 : containsStr (toLowerStr q) "gm" = true) :
    classifyQuery q = some "gross_margin_trend" := by
  simp [classifyQuery, h1, h2]

/-- C10 witness: "segment analysis" contains "gm" only inside the word
"segment" yet classifies as gross_margin_trend. -/
theorem claim10_gm_substring_witness :
    classifyQuery "segment analysis" = some "gross_margin_trend" :=
  claim10_gm_substring "segment analysis" (by decide) (by decide)

end CFO
